import Mathlib

/-!
Shallow embedding of `src/bitmex_trade_buckets.py` (gap reconciler and live
stream consumer for one-minute BitMEX trade buckets), together with theorems
checking the specification's claims against it.

Times are UNIX seconds modelled as `Int`.  The store (`tradeBin1m` MySQL
table) is modelled as a list of rows.  External effects — the historical
fetch, the store round-trips, the wall clock, the websocket — are supplied
by oracles (`FGEnv`, `IterInput`) so that the control flow of the Python
code becomes a pure function of those oracles.
-/

namespace BitmexBuckets

/-- One OHLCV trade bucket (the record inserted by `insert_trade_bucket`,
source lines 51-74): `timestamp` and `symbol` form the key, every other
column is nullable (the Python code reads each with a presence-check that
defaults to `None`, so a record is exactly a tuple of optionals). -/
structure Bucket where
  timestamp : Int
  symbol : String
  openPx : Option Int
  highPx : Option Int
  lowPx : Option Int
  closePx : Option Int
  trades : Option Int
  volume : Option Int
  vwap : Option Int
  lastSize : Option Int
  turnover : Option Int
  homeNotional : Option Int
  foreignNotional : Option Int
deriving DecidableEq

/-- Contents of the `tradeBin1m` table, in insertion order. -/
structure DB where
  rows : List Bucket
deriving DecidableEq

/-- Whether a row matches the `(timestamp, symbol)` key. -/
def keyMatches (r : Bucket) (ts : Int) (sym : String) : Bool :=
  r.timestamp == ts && r.symbol == sym

/-- Whether the table already holds a row with the given key. -/
def hasKey (db : DB) (ts : Int) (sym : String) : Bool :=
  db.rows.any (fun r => keyMatches r ts sym)

/-- Number of rows with the given key. -/
def countKey (db : DB) (ts : Int) (sym : String) : Nat :=
  db.rows.countP (fun r => keyMatches r ts sym)

/-- Modelled from the spec: the `tradeBin1m` table schema is not part of
`src/`; per the spec's data-model invariant, `(timestamp, symbol)` uniquely
identifies a bucket, i.e. the table carries a unique key on that pair, so
the plain `INSERT` issued by `insert_trade_bucket` (source line 69) raises a
duplicate-key error when the key already exists and otherwise appends the
row and commits. -/
def dbExec (db : DB) (b : Bucket) : Except String DB :=
  if hasKey db b.timestamp b.symbol then Except.error "Duplicate entry"
  else Except.ok ⟨db.rows ++ [b]⟩

/-- Function `insert_trade_bucket` (source lines 51-74): runs the `INSERT` inside a
`try`/`except` that logs and swallows every exception, so the caller never
observes an error and a failed statement leaves the table unchanged.
`transientFail` is the oracle for a non-duplicate store error (lost
connection, etc.) on this particular call. -/
def insert_trade_bucket (transientFail : Bool) (db : DB) (b : Bucket) : DB :=
  if transientFail then db
  else
    match dbExec db b with
    | Except.ok db2 => db2
    | Except.error _ => db

/-- Function `get_max_timestamp_of_trade_buckets` (source lines 76-87): on any query
error the exception is caught and the initial `None` is returned; otherwise
`SELECT MAX(timestamp_dt)` yields `None` on an empty table and the maximum
timestamp otherwise. -/
def get_max_timestamp_of_trade_buckets (queryFails : Bool) (db : DB) : Option Int :=
  if queryFails then none
  else (db.rows.map (fun r => r.timestamp)).max?

/-! ### The gap reconciler `fill_gaps` (source lines 92-125) -/

/-- Oracles and initial data for one run of `fill_gaps`:
`fetch k t` is the result of the `Trade_getBucketed` call at loop iteration
`k` with start time `t` (`none` = the call raised); `insertFail k i` is the
transient-store-error oracle for the insert of the `i`-th returned bucket of
iteration `k`; `clock k` is the value of `datetime.utcnow()` re-sampled at
the end of iteration `k` (source line 125); `now0` is the sample taken on
entry (line 93); `maxTs` is what `get_max_timestamp_of_trade_buckets`
returned; `db0` is the table contents on entry. -/
structure FGEnv where
  fetch : Nat → Int → Option (List Bucket)
  insertFail : Nat → Nat → Bool
  clock : Nat → Int
  now0 : Int
  maxTs : Option Int
  db0 : DB

/-- Loop state of `fill_gaps`, plus the observational trace `fetchCalls` of
start times passed to the historical fetch. -/
structure FGState where
  startTime : Int
  now : Int
  store : DB
  fetchCalls : List Int
deriving DecidableEq

/-- Source line 119: insert every returned bucket, in order, each insert
swallowing its own errors. -/
def insertAllFetched (env : FGEnv) (k : Nat) (db : DB) (trades : List Bucket) : DB :=
  (trades.enum).foldl (fun d p => insert_trade_bucket (env.insertFail k p.1) d p.2) db

/-- One iteration of the `while start_time <= now` body (source lines
105-125): issue the fetch; on success insert all buckets and advance
`start_time` by two hours, on failure leave `start_time` unchanged; in both
cases re-sample `now`. -/
def stepFillGaps (env : FGEnv) (k : Nat) (s : FGState) : FGState :=
  match env.fetch k s.startTime with
  | some trades =>
      { s with
        store := insertAllFetched env k s.store trades
        startTime := s.startTime + 2 * 60 * 60
        fetchCalls := s.fetchCalls ++ [s.startTime]
        now := env.clock k }
  | none =>
      { s with
        fetchCalls := s.fetchCalls ++ [s.startTime]
        now := env.clock k }

/-- The `while start_time <= now` loop, with explicit fuel.  The boolean is
`true` when the loop exited normally (i.e. `start_time > now` was observed)
and `false` when the fuel ran out first. -/
def fillGapsLoop (env : FGEnv) : Nat → Nat → FGState → FGState × Bool
  | 0, _, s => (s, false)
  | fuel + 1, k, s =>
      if s.startTime ≤ s.now then fillGapsLoop env fuel (k + 1) (stepFillGaps env k s)
      else (s, true)

/-- Source line 97: `if max_timestamp_dt == None: max_timestamp_dt = now`. -/
def resolveMaxTs (maxTs : Option Int) (now : Int) : Int :=
  match maxTs with
  | none => now
  | some t => t

/-- Function `fill_gaps(horizon)` (source lines 92-125):
`start_time = min(now - horizon, max_timestamp_dt) + 60`, then the fetch
loop. -/
def fillGaps (env : FGEnv) (horizon : Int) (fuel : Nat) : FGState × Bool :=
  let now := env.now0
  let maxTs := resolveMaxTs env.maxTs now
  let startTime := min (now - horizon) maxTs + 60
  fillGapsLoop env fuel 0 ⟨startTime, now, env.db0, []⟩

/-! ### The live stream consumer `capture_data` (source lines 127-183)

The `while True` loop is modelled as a step function driven by an
`IterInput` oracle per iteration: whether a reconnect attempt (line 140)
succeeds, what `websocket.recv()` yields (a parsed frame, or `none` when it
raises), whether the socket reports open after a failed receive, the two
`utcnow()` samples of the failure handler (lines 148 and 150), and whether
the store errors transiently on the live insert.  The nested `fill_gaps`
call of line 152 is recorded observationally (the horizon passed to it);
its store traffic is not replayed inside the live machine, since no claim
relates the two stores.  Frames are modelled post-`json.loads`, and the
`timestamp` of a record is modelled as an already-parsed instant. -/

/-- Raw record inside a data frame's `data` payload: `timestamp` and
`symbol` may be missing (source lines 178-179 check their presence), every
other column is optional as in `Bucket`. -/
structure LiveRec where
  timestamp : Option Int
  symbol : Option String
  openPx : Option Int
  highPx : Option Int
  lowPx : Option Int
  closePx : Option Int
  trades : Option Int
  volume : Option Int
  vwap : Option Int
  lastSize : Option Int
  turnover : Option Int
  homeNotional : Option Int
  foreignNotional : Option Int
deriving DecidableEq

/-- Parsed JSON frame: `table`/`action` are `none` when the corresponding
key is missing (the acknowledgment frames of source line 159), `data` is
`none` when the `data` key is missing (line 171). -/
structure Frame where
  table : Option String
  action : Option String
  data : Option (List LiveRec)
deriving DecidableEq

/-- Source line 182-183: the record with its timestamp parsed, handed to
`insert_trade_bucket`. -/
def recToBucket (t : Int) (sym : String) (r : LiveRec) : Bucket :=
  ⟨t, sym, r.openPx, r.highPx, r.lowPx, r.closePx, r.trades, r.volume, r.vwap,
    r.lastSize, r.turnover, r.homeNotional, r.foreignNotional⟩

/-- Python truthiness of the `when_outage_occurred` variable (line 147
tests `not when_outage_occurred`): `None` and the timestamp `0.0` are
falsy. -/
def pyTruthy : Option Int → Bool
  | none => false
  | some t => t != 0

/-- Source lines 147-148: `if not when_outage_occurred:
when_outage_occurred = utcnow()`.  Returns the value the variable holds
after the check, with `tFail` the `utcnow()` sample of line 148. -/
def markOutage (marker : Option Int) (tFail : Int) : Int :=
  match marker with
  | none => tFail
  | some t => if t != 0 then t else tFail

/-- Source lines 147-151: update the outage marker, then compute
`horizon = now - when_outage_occurred + 5*60` where `tNow` is the second
`utcnow()` sample (line 150). -/
def markOutageAndHorizon (marker : Option Int) (tFail tNow : Int) : Option Int × Int :=
  (some (markOutage marker tFail), tNow - markOutage marker tFail + 5 * 60)

/-- Environment oracle for one iteration of the `while True` loop. -/
structure IterInput where
  connectOk : Bool
  recvResult : Option Frame
  stillOpen : Bool
  tFail : Int
  tNow : Int
  insertTransientFail : Bool
deriving DecidableEq

/-- State of the `capture_data` loop.  `sockOpen` models `websocket.open`,
`sawSnapshot` models `rcvd_tradeBin1m_partial`, `marker` models
`when_outage_occurred`.  The remaining fields are observational traces:
`connId` counts successful connections (0 = the initial one),
`snapshotConns` lists the connection on which each snapshot frame was
observed, `inserts` records each live-path insert with the connection it
happened on, `fillGapsHorizons` records the horizon of each nested
`fill_gaps` call. -/
structure CapState where
  sockOpen : Bool
  sawSnapshot : Bool
  marker : Option Int
  db : DB
  connId : Nat
  snapshotConns : List Nat
  inserts : List (Nat × Bucket)
  fillGapsHorizons : List Int
deriving DecidableEq

/-- Result of one loop iteration: `cont` continues the loop, `crash` means
an exception escaped `capture_data` (only the bare `websockets.connect` of
line 140 can do that in the loop). -/
inductive CapResult where
  | cont (s : CapState)
  | crash (s : CapState)
deriving DecidableEq

/-- State carried by either result. -/
def CapResult.state : CapResult → CapState
  | CapResult.cont s => s
  | CapResult.crash s => s

/-- Whether the iteration continued the loop. -/
def CapResult.isCont : CapResult → Bool
  | CapResult.cont _ => true
  | CapResult.crash _ => false

/-- Source lines 156-183: handling of a successfully received frame. -/
def processFrame (s : CapState) (inp : IterInput) (f : Frame) : CapState :=
  match f.table, f.action with
  | some tb, some act =>
      if tb = "tradeBin1m" ∧ act = "partial" then
        { s with sawSnapshot := true, snapshotConns := s.snapshotConns ++ [s.connId] }
      else if s.sawSnapshot then
        match f.data with
        | none => s
        | some recs =>
            match recs.getLast? with
            | none => s
            | some lastRec =>
                match lastRec.timestamp, lastRec.symbol with
                | some t, some sym =>
                    if sym = "XBTUSD" then
                      { s with
                        db := insert_trade_bucket inp.insertTransientFail s.db
                          (recToBucket t sym lastRec)
                        inserts := s.inserts ++ [(s.connId, recToBucket t sym lastRec)] }
                    else s
                | _, _ => s
      else s
  | _, _ => s

/-- Source line 142: `if websocket.open: when_outage_occurred = None`. -/
def clearIfOpen (s : CapState) : CapState :=
  if s.sockOpen then { s with marker := none } else s

/-- Source lines 143-183: attempt the receive; on failure run the outage
handler (mark the outage, record the `fill_gaps(horizon)` call, `continue`),
on success process the frame. -/
def recvPhase (s : CapState) (inp : IterInput) : CapState :=
  match inp.recvResult with
  | none =>
      { s with
        marker := (markOutageAndHorizon s.marker inp.tFail inp.tNow).1
        sockOpen := inp.stillOpen
        fillGapsHorizons :=
          s.fillGapsHorizons ++ [(markOutageAndHorizon s.marker inp.tFail inp.tNow).2] }
  | some f => processFrame s inp f

/-- One iteration of the `while True` loop (source lines 137-183): if the
socket is closed, reconnect first — a failed `websockets.connect` raises
out of `capture_data` (`crash`); a successful one opens a fresh connection.
Then line 142 clears the marker whenever the socket is open, and the
receive phase runs. -/
def stepCapture (s : CapState) (inp : IterInput) : CapResult :=
  if s.sockOpen then CapResult.cont (recvPhase (clearIfOpen s) inp)
  else if inp.connectOk then
    CapResult.cont
      (recvPhase (clearIfOpen { s with sockOpen := true, connId := s.connId + 1 }) inp)
  else CapResult.crash s

/-- Run the loop over a finite prefix of iteration inputs.  The boolean is
`true` when the loop crashed (an exception escaped `capture_data`) before
consuming all inputs, `false` when it is still running. -/
def runCapture (s : CapState) : List IterInput → CapState × Bool
  | [] => (s, false)
  | inp :: rest =>
      match stepCapture s inp with
      | CapResult.cont s2 => runCapture s2 rest
      | CapResult.crash s2 => (s2, true)

/-- State at source line 136: `rcvd_tradeBin1m_partial = False`,
`when_outage_occurred = None`, initial websocket connected. -/
def initCapture (db : DB) : CapState :=
  { sockOpen := true, sawSnapshot := false, marker := none, db := db
    connId := 0, snapshotConns := [], inserts := [], fillGapsHorizons := [] }

/-- Snapshot-gating invariant: a set `sawSnapshot` flag, and every live
insert, is justified by a snapshot observed on the same or an earlier
connection. -/
def CapInv (s : CapState) : Prop :=
  (s.sawSnapshot = true → ∃ c ∈ s.snapshotConns, c ≤ s.connId)
  ∧ (∀ p ∈ s.inserts, ∃ c ∈ s.snapshotConns, c ≤ p.1)
  ∧ ∀ c ∈ s.snapshotConns, c ≤ s.connId

/-- Clock sequence of a `fill_gaps` run: the value `now` holds at the start
of iteration `k` (re-sampled at source line 125 after each iteration). -/
def nowSeq (env : FGEnv) : Nat → Int
  | 0 => env.now0
  | k + 1 => env.clock k

/-! ### Concrete scenario data used by individual claims -/

/-- Iteration input delivering frame `f` on a healthy connection. -/
def recvInput (f : Frame) : IterInput :=
  ⟨true, some f, true, 0, 0, false⟩

/-- Iteration input whose receive raises; `stillOpen` is the socket state
afterwards. -/
def recvFailInput (stillOpen : Bool) (tFail tNow : Int) : IterInput :=
  ⟨true, none, stillOpen, tFail, tNow, false⟩

/-- Iteration input for a closed socket whose reconnect attempt raises. -/
def reconnectFailInput : IterInput :=
  ⟨false, none, true, 0, 0, false⟩

/-- Snapshot frame of the tradeBin1m channel. -/
def snapshotFrame : Frame :=
  ⟨some "tradeBin1m", some "partial", none⟩

/-- Well-formed live record for the tracked instrument. -/
def liveRecXBT (t : Int) : LiveRec :=
  ⟨some t, some "XBTUSD", none, none, none, none, none, none, none, none, none, none, none⟩

/-- Incremental data frame carrying one bucket record. -/
def dataFrame (t : Int) : Frame :=
  ⟨some "tradeBin1m", some "update", some [liveRecXBT t]⟩

/-- Events of the reconnect scenario of claim C3: snapshot on connection 0,
a receive failure that closes the socket, then a successful reconnect
(connection 1) followed immediately by a data frame. -/
def c3CexRun : CapState × Bool :=
  runCapture (initCapture ⟨[]⟩)
    [recvInput snapshotFrame, recvFailInput false 500 510, recvInput (dataFrame 600)]

/-- Single-connection run used to witness the amended claim C3: snapshot
then a data frame, both on connection 0. -/
def c3WitnessRun : CapState × Bool :=
  runCapture (initCapture ⟨[]⟩) [recvInput snapshotFrame, recvInput (dataFrame 600)]

/-- Events of claim C8's counterexample: a receive failure closes the
socket, then the reconnect attempt raises. -/
def c8CexRun : CapState × Bool :=
  runCapture (initCapture ⟨[]⟩) [recvFailInput false 500 510, reconnectFailInput]

/-- Scenario environment of claim C1: store max timestamp ten minutes old,
clock frozen, every fetch succeeding with an empty page. -/
def c1ScenarioEnv : FGEnv :=
  { fetch := fun _ _ => some []
    insertFail := fun _ _ => false
    clock := fun _ => 1000000
    now0 := 1000000
    maxTs := some 999400
    db0 := ⟨[]⟩ }

/-- Environment of claim C6's witness: the first fetch raises, every later
one succeeds; the clock is frozen. -/
def c6Env : FGEnv :=
  { fetch := fun k _ => if k = 0 then none else some []
    insertFail := fun _ _ => false
    clock := fun _ => 1000
    now0 := 1000
    maxTs := some 900
    db0 := ⟨[]⟩ }

/-- Loop state of claim C6's witness. -/
def c6State : FGState :=
  ⟨100, 1000, ⟨[]⟩, []⟩

/-- Environment of claim C9's witness: constant clock, every fetch
succeeding. -/
def c9Env : FGEnv :=
  { fetch := fun _ _ => some []
    insertFail := fun _ _ => false
    clock := fun _ => 1000
    now0 := 1000
    maxTs := some 900
    db0 := ⟨[]⟩ }

/-! ### Helper lemmas -/

theorem insert_trade_bucket_eq (db : DB) (b : Bucket) :
    insert_trade_bucket false db b
      = if hasKey db b.timestamp b.symbol then db else ⟨db.rows ++ [b]⟩ := by
  by_cases hk : hasKey db b.timestamp b.symbol <;>
    simp [insert_trade_bucket, dbExec, hk]

theorem keyMatches_self (b : Bucket) : keyMatches b b.timestamp b.symbol = true := by
  simp [keyMatches]

theorem hasKey_append_self (db : DB) (b : Bucket) :
    hasKey ⟨db.rows ++ [b]⟩ b.timestamp b.symbol = true := by
  simp [hasKey, List.any_append, keyMatches_self]

theorem stepFillGaps_now (env : FGEnv) (k : Nat) (s : FGState) :
    (stepFillGaps env k s).now = env.clock k := by
  cases h : env.fetch k s.startTime <;> simp [stepFillGaps, h]

theorem stepFillGaps_fetchCalls (env : FGEnv) (k : Nat) (s : FGState) :
    (stepFillGaps env k s).fetchCalls = s.fetchCalls ++ [s.startTime] := by
  cases h : env.fetch k s.startTime <;> simp [stepFillGaps, h]

theorem stepFillGaps_start_of_none (env : FGEnv) (k : Nat) (s : FGState)
    (h : env.fetch k s.startTime = none) :
    (stepFillGaps env k s).startTime = s.startTime := by
  simp [stepFillGaps, h]

theorem stepFillGaps_start_of_some (env : FGEnv) (k : Nat) (s : FGState)
    (tr : List Bucket) (h : env.fetch k s.startTime = some tr) :
    (stepFillGaps env k s).startTime = s.startTime + 2 * 60 * 60 := by
  simp [stepFillGaps, h]

theorem fillGapsLoop_succ_of_le (env : FGEnv) (f k : Nat) (s : FGState)
    (h : s.startTime ≤ s.now) :
    fillGapsLoop env (f + 1) k s = fillGapsLoop env f (k + 1) (stepFillGaps env k s) := by
  simp [fillGapsLoop, if_pos h]

theorem fillGapsLoop_of_not_le (env : FGEnv) (fuel k : Nat) (s : FGState)
    (h : ¬ s.startTime ≤ s.now) (hfuel : 1 ≤ fuel) :
    fillGapsLoop env fuel k s = (s, true) := by
  obtain ⟨f, rfl⟩ : ∃ f, fuel = f + 1 := ⟨fuel - 1, by omega⟩
  simp [fillGapsLoop, if_neg h]

theorem fillGapsLoop_fetchCalls_mono (env : FGEnv) :
    ∀ (fuel k : Nat) (s : FGState),
      ∃ l, (fillGapsLoop env fuel k s).1.fetchCalls = s.fetchCalls ++ l := by
  intro fuel
  induction fuel with
  | zero => exact fun k s => ⟨[], by simp [fillGapsLoop]⟩
  | succ f ih =>
      intro k s
      by_cases h : s.startTime ≤ s.now
      · obtain ⟨l, hl⟩ := ih (k + 1) (stepFillGaps env k s)
        refine ⟨[s.startTime] ++ l, ?_⟩
        rw [fillGapsLoop_succ_of_le env f k s h, hl, stepFillGaps_fetchCalls]
        simp
      · exact ⟨[], by rw [fillGapsLoop_of_not_le env (f + 1) k s h (by omega)]; simp⟩

theorem fillGapsLoop_true_now_lt (env : FGEnv) :
    ∀ (fuel k : Nat) (s s2 : FGState),
      fillGapsLoop env fuel k s = (s2, true) → s2.now < s2.startTime := by
  intro fuel
  induction fuel with
  | zero => intro k s s2 h; simp [fillGapsLoop] at h
  | succ f ih =>
      intro k s s2 h
      by_cases hc : s.startTime ≤ s.now
      · rw [fillGapsLoop_succ_of_le env f k s hc] at h
        exact ih _ _ _ h
      · rw [fillGapsLoop_of_not_le env (f + 1) k s hc (by omega)] at h
        injection h with h1 _
        subst h1
        omega

theorem fillGapsLoop_term_aux (env : FGEnv)
    (hfetch : ∀ k t, (env.fetch k t).isSome)
    (hclock : ∀ k, nowSeq env (k + 1) < nowSeq env k + 2 * 60 * 60) :
    ∀ (fuel k : Nat) (s : FGState), s.now = nowSeq env k →
      (s.now - s.startTime).toNat + 2 ≤ fuel →
      (fillGapsLoop env fuel k s).2 = true := by
  intro fuel
  induction fuel with
  | zero => intro k s _ h2; omega
  | succ f ih =>
      intro k s hnow hfuel
      by_cases hc : s.startTime ≤ s.now
      · rw [fillGapsLoop_succ_of_le env f k s hc]
        obtain ⟨tr, htr⟩ := Option.isSome_iff_exists.mp (hfetch k s.startTime)
        have hst := stepFillGaps_start_of_some env k s tr htr
        have hnw : (stepFillGaps env k s).now = nowSeq env (k + 1) := stepFillGaps_now env k s
        have hcl : (stepFillGaps env k s).now < s.now + 2 * 60 * 60 := by
          rw [hnw, hnow]; exact hclock k
        by_cases hc2 : (stepFillGaps env k s).startTime ≤ (stepFillGaps env k s).now
        · exact ih (k + 1) _ hnw (by omega)
        · rw [fillGapsLoop_of_not_le env f _ _ hc2 (by omega)]
      · rw [fillGapsLoop_of_not_le env (f + 1) k s hc (by omega)]

theorem stepFillGaps_congr (e1 e2 : FGEnv) (hf : e1.fetch = e2.fetch)
    (hi : e1.insertFail = e2.insertFail) (hc : e1.clock = e2.clock)
    (k : Nat) (s : FGState) : stepFillGaps e1 k s = stepFillGaps e2 k s := by
  simp only [stepFillGaps, insertAllFetched, hf, hi, hc]

theorem fillGapsLoop_congr (e1 e2 : FGEnv) (hf : e1.fetch = e2.fetch)
    (hi : e1.insertFail = e2.insertFail) (hc : e1.clock = e2.clock) :
    ∀ (fuel k : Nat) (s : FGState), fillGapsLoop e1 fuel k s = fillGapsLoop e2 fuel k s := by
  intro fuel
  induction fuel with
  | zero => intro k s; rfl
  | succ f ih =>
      intro k s
      by_cases h : s.startTime ≤ s.now
      · rw [fillGapsLoop_succ_of_le e1 f k s h, fillGapsLoop_succ_of_le e2 f k s h,
          stepFillGaps_congr e1 e2 hf hi hc, ih]
      · rw [fillGapsLoop_of_not_le e1 (f + 1) k s h (by omega),
          fillGapsLoop_of_not_le e2 (f + 1) k s h (by omega)]

/-! ### Claim theorems -/

/-- Claim C5 (confirmed): for any bucket `b`, calling `insert(b)` twice
leaves the store in the same observable state as calling it once; inserting
a bucket whose `(timestamp, symbol)` key already exists succeeds without a
propagated error (the function is total) and without creating a duplicate
row (the key's row count after an insert is `max` of the old count and 1).
The per-call transient-error oracle is `false`: both calls reach the
store. -/
theorem insert_trade_bucket_idempotent (db : DB) (b : Bucket) :
    insert_trade_bucket false (insert_trade_bucket false db b) b
      = insert_trade_bucket false db b
    ∧ countKey (insert_trade_bucket false db b) b.timestamp b.symbol
      = max (countKey db b.timestamp b.symbol) 1 := by
  by_cases hk : hasKey db b.timestamp b.symbol
  · have h1 : insert_trade_bucket false db b = db := by
      rw [insert_trade_bucket_eq, if_pos hk]
    have hpos : 0 < countKey db b.timestamp b.symbol := by
      rw [countKey, List.countP_pos_iff]
      rw [hasKey, List.any_eq_true] at hk
      exact hk
    constructor
    · rw [h1, h1]
    · rw [h1]; omega
  · have h1 : insert_trade_bucket false db b = ⟨db.rows ++ [b]⟩ := by
      rw [insert_trade_bucket_eq, if_neg hk]
    have hzero : countKey db b.timestamp b.symbol = 0 := by
      rw [countKey, List.countP_eq_zero]
      rw [hasKey] at hk
      intro a ha
      by_contra hmem
      exact hk (List.any_eq_true.mpr ⟨a, ha, by simpa using hmem⟩)
    constructor
    · rw [h1, insert_trade_bucket_eq, if_pos (hasKey_append_self db b), ← h1]
    · rw [h1]
      have : countKey ⟨db.rows ++ [b]⟩ b.timestamp b.symbol
          = countKey db b.timestamp b.symbol + 1 := by
        simp [countKey, List.countP_append, keyMatches_self]
      omega

/-- Claim C10 (confirmed): when the max-timestamp query raises,
`get_max_timestamp_of_trade_buckets` returns `None` instead of propagating,
and `fill_gaps` then behaves exactly as with an absent maximum: it defaults
the maximum timestamp to `now`, producing the same run as an environment
whose store reported `now` itself. -/
theorem max_timestamp_error_defaults_to_now :
    (∀ db : DB, get_max_timestamp_of_trade_buckets true db = none)
    ∧ ∀ (env : FGEnv) (horizon : Int) (fuel : Nat),
        fillGaps { env with maxTs := none } horizon fuel
          = fillGaps { env with maxTs := some env.now0 } horizon fuel := by
  refine ⟨fun db => rfl, fun env horizon fuel => ?_⟩
  exact fillGapsLoop_congr { env with maxTs := none } { env with maxTs := some env.now0 }
    rfl rfl rfl fuel 0 ⟨min (env.now0 - horizon) env.now0 + 60, env.now0, env.db0, []⟩

/-- Claim C4 counterexample: in an environment whose only fetch succeeds
with one bucket whose insert then fails (transient store error, swallowed
at source line 74), `fill_gaps` still advances `start_time` by two hours —
the bucket is missing from the store, yet the window is not retried.  The
claim's assertion that an insert failure leaves `start` unchanged is
false. -/
theorem fill_gaps_advances_despite_insert_failure :
    fillGaps
      { fetch := fun _ st =>
          some [⟨st, "XBTUSD", none, none, none, none, none, none, none, none,
            none, none, none⟩]
        insertFail := fun _ _ => true
        clock := fun _ => 1000000
        now0 := 1000000
        maxTs := some 999400
        db0 := ⟨[]⟩ } 1200 5
      = (⟨1006060, 1000000, ⟨[]⟩, [998860]⟩, true) := by
  decide

/-- Claim C4, amended: in each `fill_gaps` loop iteration, `start_time` is
left unchanged exactly when the historical fetch fails; when the fetch
succeeds, `start_time` advances by two hours regardless of whether any
insert of a returned bucket fails, because `insert_trade_bucket` catches
and swallows its own store errors. -/
theorem fill_gaps_advance_iff_fetch_ok (env : FGEnv) (k : Nat) (s : FGState) :
    (env.fetch k s.startTime = none → (stepFillGaps env k s).startTime = s.startTime)
    ∧ ∀ tr, env.fetch k s.startTime = some tr →
        (stepFillGaps env k s).startTime = s.startTime + 2 * 60 * 60 := by
  exact ⟨stepFillGaps_start_of_none env k s,
    fun tr h => stepFillGaps_start_of_some env k s tr h⟩

/-- Witness for the amended claim C4, at a failing and at a succeeding
fetch. -/
theorem fill_gaps_advance_iff_fetch_ok_witness :
    (stepFillGaps
      { fetch := fun _ _ => none
        insertFail := fun _ _ => false
        clock := fun _ => 0
        now0 := 0
        maxTs := none
        db0 := ⟨[]⟩ } 0 ⟨100, 200, ⟨[]⟩, []⟩).startTime = 100
    ∧ (stepFillGaps
      { fetch := fun _ _ => some []
        insertFail := fun _ _ => false
        clock := fun _ => 0
        now0 := 0
        maxTs := none
        db0 := ⟨[]⟩ } 0 ⟨100, 200, ⟨[]⟩, []⟩).startTime = 100 + 2 * 60 * 60 :=
  ⟨(fill_gaps_advance_iff_fetch_ok _ 0 _).1 rfl,
    (fill_gaps_advance_iff_fetch_ok _ 0 _).2 [] rfl⟩

/-- Claim C1 counterexample: with the store's maximum timestamp ten minutes
old (`T = now - 600`) and a twenty-minute horizon, the claim puts the first
(and only) fetch window at `max(now - horizon, T) + 60 = now - 540`; the
code computes `min(now - horizon, max_timestamp) + 60` (source line 102)
and fetches at `998860 = now - 1140` instead. -/
theorem fill_gaps_first_window_claim_false :
    fillGaps c1ScenarioEnv 1200 5 = (⟨1006060, 1000000, ⟨[]⟩, [998860]⟩, true)
    ∧ (998860 : Int) ≠ max (1000000 - 1200) 999400 + 60 := by
  constructor <;> decide

/-- Claim C1, amended: for every horizon `h` and persisted maximum
timestamp `T`, `fill_gaps(h)` starts its first fetch window at
`min(now - h, T) + 60` seconds; in particular, when the store's maximum
timestamp is `now - 10` minutes and `10 min < h < 121 min`, exactly one
fetch request is issued, for a window starting at `now - h + 60`, after
which the loop terminates. -/
theorem fill_gaps_first_window_min (env : FGEnv) (T horizon : Int) (fuel : Nat)
    (hT : env.maxTs = some T)
    (hstart : min (env.now0 - horizon) T + 60 ≤ env.now0)
    (hfuel : 1 ≤ fuel) :
    (fillGaps env horizon fuel).1.fetchCalls.head?
      = some (min (env.now0 - horizon) T + 60)
    ∧ (T = env.now0 - 600 → 600 < horizon → horizon < 7260 →
        env.clock 0 ≤ env.now0 → 2 ≤ fuel →
        (env.fetch 0 (env.now0 - horizon + 60)).isSome →
        (fillGaps env horizon fuel).1.fetchCalls = [env.now0 - horizon + 60]
        ∧ (fillGaps env horizon fuel).2 = true) := by
  have hunf : fillGaps env horizon fuel
      = fillGapsLoop env fuel 0
          ⟨min (env.now0 - horizon) (resolveMaxTs env.maxTs env.now0) + 60,
            env.now0, env.db0, []⟩ := rfl
  rw [hT] at hunf
  have hres : resolveMaxTs (some T) env.now0 = T := rfl
  rw [hres] at hunf
  constructor
  · obtain ⟨f, rfl⟩ : ∃ f, fuel = f + 1 := ⟨fuel - 1, by omega⟩
    rw [hunf]
    have hcond : (⟨min (env.now0 - horizon) T + 60, env.now0, env.db0, []⟩ :
        FGState).startTime
        ≤ (⟨min (env.now0 - horizon) T + 60, env.now0, env.db0, []⟩ : FGState).now :=
      hstart
    rw [fillGapsLoop_succ_of_le env f 0 _ hcond]
    obtain ⟨l, hl⟩ := fillGapsLoop_fetchCalls_mono env f 1
      (stepFillGaps env 0 ⟨min (env.now0 - horizon) T + 60, env.now0, env.db0, []⟩)
    rw [hl, stepFillGaps_fetchCalls]
    simp
  · intro hT600 hh1 hh2 hclk hfuel2 hfet
    have hmin : min (env.now0 - horizon) T = env.now0 - horizon := by
      rw [hT600]; exact min_eq_left (by omega)
    rw [hmin] at hunf
    obtain ⟨f, rfl⟩ : ∃ f, fuel = f + 1 + 1 := ⟨fuel - 2, by omega⟩
    obtain ⟨tr, htr⟩ := Option.isSome_iff_exists.mp hfet
    have hcond0 : (⟨env.now0 - horizon + 60, env.now0, env.db0, []⟩ :
        FGState).startTime
        ≤ (⟨env.now0 - horizon + 60, env.now0, env.db0, []⟩ : FGState).now := by
      show env.now0 - horizon + 60 ≤ env.now0
      omega
    have hst1 := stepFillGaps_start_of_some env 0
      ⟨env.now0 - horizon + 60, env.now0, env.db0, []⟩ tr htr
    have hnw1 := stepFillGaps_now env 0
      (⟨env.now0 - horizon + 60, env.now0, env.db0, []⟩ : FGState)
    have hcond1 : ¬ (stepFillGaps env 0
        (⟨env.now0 - horizon + 60, env.now0, env.db0, []⟩ : FGState)).startTime
        ≤ (stepFillGaps env 0
        (⟨env.now0 - horizon + 60, env.now0, env.db0, []⟩ : FGState)).now := by
      rw [hst1, hnw1]
      show ¬ env.now0 - horizon + 60 + 2 * 60 * 60 ≤ env.clock 0
      omega
    have hloop : fillGapsLoop env (f + 1 + 1) 0
        (⟨env.now0 - horizon + 60, env.now0, env.db0, []⟩ : FGState)
        = (stepFillGaps env 0
            (⟨env.now0 - horizon + 60, env.now0, env.db0, []⟩ : FGState), true) := by
      rw [fillGapsLoop_succ_of_le env (f + 1) 0 _ hcond0]
      exact fillGapsLoop_of_not_le env (f + 1) 1 _ hcond1 (by omega)
    rw [hunf, hloop]
    refine ⟨?_, rfl⟩
    rw [stepFillGaps_fetchCalls]
    rfl

/-- Witness for the amended claim C1, in the ten-minute-gap scenario. -/
theorem fill_gaps_first_window_min_witness :
    (fillGaps c1ScenarioEnv 1200 2).1.fetchCalls.head?
      = some (min (c1ScenarioEnv.now0 - 1200) 999400 + 60)
    ∧ (fillGaps c1ScenarioEnv 1200 2).1.fetchCalls = [c1ScenarioEnv.now0 - 1200 + 60]
    ∧ (fillGaps c1ScenarioEnv 1200 2).2 = true := by
  have h := fill_gaps_first_window_min c1ScenarioEnv 999400 1200 2 rfl (by decide)
    (by omega)
  exact ⟨h.1,
    (h.2 (by decide) (by decide) (by decide) (by decide) (by omega) (by decide)).1,
    (h.2 (by decide) (by decide) (by decide) (by decide) (by omega) (by decide)).2⟩

/-- Claim C2 counterexample: with an empty store (`maxTimestamp()` absent)
and a two-hour horizon, `fill_gaps` does not set `start = now` and return
immediately: the defaulted maximum `now` passes through
`min(now - horizon, now) + 60`, so one historical fetch is issued at
`now - horizon + 60 = 992860 ≠ now = 1000000`. -/
theorem fill_gaps_empty_store_fetches :
    fillGaps
      { fetch := fun _ _ => some []
        insertFail := fun _ _ => false
        clock := fun _ => 1000000
        now0 := 1000000
        maxTs := none
        db0 := ⟨[]⟩ } 7200 5
      = (⟨1000060, 1000000, ⟨[]⟩, [992860]⟩, true) := by
  decide

/-- Claim C2, amended: when the store is empty, `fill_gaps` defaults the
maximum timestamp to `now`, so its start time becomes
`min(now - horizon, now) + 60 = now - horizon + 60`; for any horizon of at
least one minute a historical backfill over the full horizon is attempted,
beginning with a fetch at `now - horizon + 60`, rather than returning
immediately with zero fetch calls. -/
theorem fill_gaps_empty_store_backfills (env : FGEnv) (horizon : Int) (fuel : Nat)
    (hmax : env.maxTs = none) (hhor : 60 ≤ horizon) (hfuel : 1 ≤ fuel) :
    (fillGaps env horizon fuel).1.fetchCalls.head? = some (env.now0 - horizon + 60) := by
  have hunf : fillGaps env horizon fuel
      = fillGapsLoop env fuel 0
          ⟨min (env.now0 - horizon) (resolveMaxTs env.maxTs env.now0) + 60,
            env.now0, env.db0, []⟩ := rfl
  rw [hmax] at hunf
  have hres : resolveMaxTs none env.now0 = env.now0 := rfl
  rw [hres] at hunf
  have hmin : min (env.now0 - horizon) env.now0 = env.now0 - horizon :=
    min_eq_left (by omega)
  rw [hmin] at hunf
  obtain ⟨f, rfl⟩ : ∃ f, fuel = f + 1 := ⟨fuel - 1, by omega⟩
  rw [hunf]
  have hcond : (⟨env.now0 - horizon + 60, env.now0, env.db0, []⟩ : FGState).startTime
      ≤ (⟨env.now0 - horizon + 60, env.now0, env.db0, []⟩ : FGState).now := by
    show env.now0 - horizon + 60 ≤ env.now0
    omega
  rw [fillGapsLoop_succ_of_le env f 0 _ hcond]
  obtain ⟨l, hl⟩ := fillGapsLoop_fetchCalls_mono env f 1
    (stepFillGaps env 0 ⟨env.now0 - horizon + 60, env.now0, env.db0, []⟩)
  rw [hl, stepFillGaps_fetchCalls]
  simp

/-- Witness for the amended claim C2. -/
theorem fill_gaps_empty_store_backfills_witness :
    (fillGaps
      { fetch := fun _ _ => some []
        insertFail := fun _ _ => false
        clock := fun _ => 1000000
        now0 := 1000000
        maxTs := none
        db0 := ⟨[]⟩ } 7200 5).1.fetchCalls.head? = some (1000000 - 7200 + 60) :=
  fill_gaps_empty_store_backfills _ 7200 5 rfl (by omega) (by omega)

/-- Claim C6 (confirmed): when the fetch of iteration `k` fails and the
fetch of iteration `k + 1` succeeds, no window is skipped: the failed
iteration leaves `start_time` unchanged (while still recording its fetch
attempt), the next iteration re-requests exactly the same window start
time, and only then does `start_time` advance by two hours; the loop
continues through both iterations whenever `start_time` is still within
both observed clock values. -/
theorem fill_gaps_retry_same_window (env : FGEnv) (k : Nat) (s : FGState)
    (hfail : env.fetch k s.startTime = none)
    (tr : List Bucket) (hsucc : env.fetch (k + 1) s.startTime = some tr) :
    (stepFillGaps env k s).startTime = s.startTime
    ∧ (stepFillGaps env k s).fetchCalls = s.fetchCalls ++ [s.startTime]
    ∧ (stepFillGaps env (k + 1) (stepFillGaps env k s)).fetchCalls
        = s.fetchCalls ++ [s.startTime, s.startTime]
    ∧ (stepFillGaps env (k + 1) (stepFillGaps env k s)).startTime
        = s.startTime + 2 * 60 * 60
    ∧ ∀ fuel, s.startTime ≤ s.now → s.startTime ≤ env.clock k →
        fillGapsLoop env (fuel + 1 + 1) k s
          = fillGapsLoop env fuel (k + 1 + 1)
              (stepFillGaps env (k + 1) (stepFillGaps env k s)) := by
  have h1 := stepFillGaps_start_of_none env k s hfail
  have h2 := stepFillGaps_fetchCalls env k s
  have hsucc2 : env.fetch (k + 1) (stepFillGaps env k s).startTime = some tr := by
    rw [h1]; exact hsucc
  have h3 : (stepFillGaps env (k + 1) (stepFillGaps env k s)).fetchCalls
      = s.fetchCalls ++ [s.startTime, s.startTime] := by
    rw [stepFillGaps_fetchCalls, h2, h1]
    simp
  have h4 : (stepFillGaps env (k + 1) (stepFillGaps env k s)).startTime
      = s.startTime + 2 * 60 * 60 := by
    rw [stepFillGaps_start_of_some env (k + 1) _ tr hsucc2, h1]
  refine ⟨h1, h2, h3, h4, fun fuel hle1 hle2 => ?_⟩
  have hnow1 : (stepFillGaps env k s).now = env.clock k := stepFillGaps_now env k s
  rw [fillGapsLoop_succ_of_le env (fuel + 1) k s hle1,
    fillGapsLoop_succ_of_le env fuel (k + 1) (stepFillGaps env k s)
      (by rw [h1, hnow1]; exact hle2)]

/-- Witness for claim C6: first fetch fails, second succeeds, the window at
100 is re-requested and only then advanced. -/
theorem fill_gaps_retry_same_window_witness :
    (stepFillGaps c6Env 0 c6State).startTime = 100
    ∧ (stepFillGaps c6Env 1 (stepFillGaps c6Env 0 c6State)).fetchCalls = [100, 100]
    ∧ (stepFillGaps c6Env 1 (stepFillGaps c6Env 0 c6State)).startTime
        = 100 + 2 * 60 * 60 := by
  have h := fill_gaps_retry_same_window c6Env 0 c6State rfl [] rfl
  exact ⟨h.1, h.2.2.1, h.2.2.2.1⟩

/-- Claim C9 (confirmed): under the hypothesis that every historical fetch
succeeds and each loop iteration advances the re-sampled wall clock by
strictly less than two hours, `fill_gaps` terminates (some fuel makes the
loop exit normally), and whenever it returns normally the final state
satisfies `now < start_time`, i.e. the loop returns exactly when
`start_time` exceeds the re-sampled current time. -/
theorem fill_gaps_terminates (env : FGEnv) (horizon : Int)
    (hfetch : ∀ k t, (env.fetch k t).isSome)
    (hclock : ∀ k, nowSeq env (k + 1) < nowSeq env k + 2 * 60 * 60) :
    (∀ (fuel : Nat) (s2 : FGState),
        fillGaps env horizon fuel = (s2, true) → s2.now < s2.startTime)
    ∧ ∃ (fuel : Nat) (s2 : FGState), fillGaps env horizon fuel = (s2, true) := by
  constructor
  · intro fuel s2 h
    exact fillGapsLoop_true_now_lt env fuel 0 _ s2 h
  · refine ⟨(env.now0
        - (min (env.now0 - horizon) (resolveMaxTs env.maxTs env.now0) + 60)).toNat + 2,
      (fillGapsLoop env
        ((env.now0
          - (min (env.now0 - horizon) (resolveMaxTs env.maxTs env.now0) + 60)).toNat + 2)
        0 ⟨min (env.now0 - horizon) (resolveMaxTs env.maxTs env.now0) + 60,
          env.now0, env.db0, []⟩).1, ?_⟩
    have hterm := fillGapsLoop_term_aux env hfetch hclock
      ((env.now0
        - (min (env.now0 - horizon) (resolveMaxTs env.maxTs env.now0) + 60)).toNat + 2)
      0 ⟨min (env.now0 - horizon) (resolveMaxTs env.maxTs env.now0) + 60,
        env.now0, env.db0, []⟩ rfl (Nat.le_refl _)
    have hunf : fillGaps env horizon
        ((env.now0
          - (min (env.now0 - horizon) (resolveMaxTs env.maxTs env.now0) + 60)).toNat + 2)
        = fillGapsLoop env
            ((env.now0
              - (min (env.now0 - horizon) (resolveMaxTs env.maxTs env.now0) + 60)).toNat + 2)
            0 ⟨min (env.now0 - horizon) (resolveMaxTs env.maxTs env.now0) + 60,
              env.now0, env.db0, []⟩ := rfl
    rw [hunf, ← hterm]

/-- Witness for claim C9, at a constant-clock environment whose run
terminates after one fetch. -/
theorem fill_gaps_terminates_witness :
    (⟨3260, 1000, ⟨[]⟩, [-3940]⟩ : FGState).now
      < (⟨3260, 1000, ⟨[]⟩, [-3940]⟩ : FGState).startTime :=
  (fill_gaps_terminates c9Env 5000 (fun _ _ => rfl)
      (by
        intro k
        cases k with
        | zero => decide
        | succ n =>
            show (1000 : Int) < 1000 + 2 * 60 * 60
            decide)).1
    3 ⟨3260, 1000, ⟨[]⟩, [-3940]⟩ (by decide)

/-! ### Lemmas about the live stream consumer -/

theorem clearIfOpen_inserts (s : CapState) : (clearIfOpen s).inserts = s.inserts := by
  unfold clearIfOpen; split <;> rfl

theorem clearIfOpen_db (s : CapState) : (clearIfOpen s).db = s.db := by
  unfold clearIfOpen; split <;> rfl

theorem processFrame_partial (s : CapState) (inp : IterInput)
    (dat : Option (List LiveRec)) :
    processFrame s inp ⟨some "tradeBin1m", some "partial", dat⟩
      = { s with
            sawSnapshot := true
            snapshotConns := s.snapshotConns ++ [s.connId] } := by
  simp [processFrame]

theorem processFrame_cases (s : CapState) (inp : IterInput) (f : Frame) :
    processFrame s inp f = s
    ∨ processFrame s inp f
        = { s with
              sawSnapshot := true
              snapshotConns := s.snapshotConns ++ [s.connId] }
    ∨ (s.sawSnapshot = true ∧ ∃ b, processFrame s inp f
        = { s with
              db := insert_trade_bucket inp.insertTransientFail s.db b
              inserts := s.inserts ++ [(s.connId, b)] }) := by
  unfold processFrame
  repeat' split
  all_goals
    first
      | (left; rfl)
      | (right; left; rfl)
      | (right; right; exact ⟨by assumption, _, rfl⟩)

theorem CapInv_initCapture (db : DB) : CapInv (initCapture db) := by
  refine ⟨?_, ?_, ?_⟩ <;> simp [initCapture]

theorem CapInv_clearIfOpen (s : CapState) (h : CapInv s) : CapInv (clearIfOpen s) := by
  unfold clearIfOpen
  split
  · exact h
  · exact h

theorem CapInv_connBump (s : CapState) (h : CapInv s) :
    CapInv { s with sockOpen := true, connId := s.connId + 1 } := by
  obtain ⟨h1, h2, h3⟩ := h
  refine ⟨?_, h2, ?_⟩
  · intro hs
    obtain ⟨c, hc, hle⟩ := h1 hs
    refine ⟨c, hc, ?_⟩
    show c ≤ s.connId + 1
    omega
  · intro c hc
    have := h3 c hc
    show c ≤ s.connId + 1
    omega

theorem CapInv_processFrame (s : CapState) (inp : IterInput) (f : Frame)
    (h : CapInv s) : CapInv (processFrame s inp f) := by
  rcases processFrame_cases s inp f with heq | heq | ⟨hs, b, heq⟩
  · rw [heq]; exact h
  · rw [heq]
    obtain ⟨h1, h2, h3⟩ := h
    refine ⟨?_, ?_, ?_⟩
    · intro _
      exact ⟨s.connId, by simp, Nat.le_refl _⟩
    · intro p hp2
      obtain ⟨c, hc, hle⟩ := h2 p hp2
      exact ⟨c, by simp [hc], hle⟩
    · intro c hc
      show c ≤ s.connId
      rcases List.mem_append.mp hc with hc1 | hc2
      · exact h3 c hc1
      · simp at hc2
        omega
  · rw [heq]
    obtain ⟨h1, h2, h3⟩ := h
    refine ⟨h1, ?_, h3⟩
    intro p hp2
    rcases List.mem_append.mp hp2 with hin | hnew
    · exact h2 p hin
    · simp at hnew
      subst hnew
      exact h1 hs

theorem CapInv_recvPhase (s : CapState) (inp : IterInput) (h : CapInv s) :
    CapInv (recvPhase s inp) := by
  obtain ⟨co, rr, so, tf, tn, itf⟩ := inp
  cases rr with
  | none => exact h
  | some f => exact CapInv_processFrame s _ f h

theorem CapInv_stepCapture (s : CapState) (inp : IterInput) (h : CapInv s) :
    CapInv (stepCapture s inp).state := by
  unfold stepCapture
  by_cases ho : s.sockOpen = true
  · rw [if_pos ho]
    exact CapInv_recvPhase _ inp (CapInv_clearIfOpen s h)
  · rw [if_neg ho]
    by_cases hco : inp.connectOk = true
    · rw [if_pos hco]
      exact CapInv_recvPhase _ inp (CapInv_clearIfOpen _ (CapInv_connBump s h))
    · rw [if_neg hco]
      exact h

theorem CapInv_runCapture :
    ∀ (evs : List IterInput) (s : CapState), CapInv s → CapInv (runCapture s evs).1 := by
  intro evs
  induction evs with
  | nil => intro s h; exact h
  | cons inp rest ih =>
      intro s h
      have hstep := CapInv_stepCapture s inp h
      cases hc : stepCapture s inp with
      | cont s2 =>
          rw [hc] at hstep
          simp only [runCapture, hc]
          exact ih s2 hstep
      | crash s2 =>
          rw [hc] at hstep
          simp only [runCapture, hc]
          exact hstep

theorem recvPhase_partial_frame (s : CapState) (co so : Bool) (tf tn : Int)
    (itf : Bool) (dat : Option (List LiveRec)) :
    (recvPhase s
        ⟨co, some ⟨some "tradeBin1m", some "partial", dat⟩, so, tf, tn, itf⟩).inserts
      = s.inserts
    ∧ (recvPhase s
        ⟨co, some ⟨some "tradeBin1m", some "partial", dat⟩, so, tf, tn, itf⟩).db
      = s.db := by
  have h1 : recvPhase s
      ⟨co, some ⟨some "tradeBin1m", some "partial", dat⟩, so, tf, tn, itf⟩
      = processFrame s
          ⟨co, some ⟨some "tradeBin1m", some "partial", dat⟩, so, tf, tn, itf⟩
          ⟨some "tradeBin1m", some "partial", dat⟩ := rfl
  rw [h1, processFrame_partial]
  exact ⟨rfl, rfl⟩

theorem stepCapture_partial_frame (s : CapState) (inp : IterInput)
    (dat : Option (List LiveRec))
    (hr : inp.recvResult = some ⟨some "tradeBin1m", some "partial", dat⟩) :
    (stepCapture s inp).state.inserts = s.inserts
    ∧ (stepCapture s inp).state.db = s.db := by
  obtain ⟨co, rr, so, tf, tn, itf⟩ := inp
  dsimp only at hr
  subst hr
  unfold stepCapture
  dsimp only
  by_cases ho : s.sockOpen = true
  · rw [if_pos ho]
    constructor
    · dsimp only [CapResult.state]
      rw [(recvPhase_partial_frame (clearIfOpen s) co so tf tn itf dat).1,
        clearIfOpen_inserts]
    · dsimp only [CapResult.state]
      rw [(recvPhase_partial_frame (clearIfOpen s) co so tf tn itf dat).2,
        clearIfOpen_db]
  · rw [if_neg ho]
    by_cases hco : co = true
    · rw [if_pos hco]
      constructor
      · dsimp only [CapResult.state]
        rw [(recvPhase_partial_frame _ co so tf tn itf dat).1, clearIfOpen_inserts]
      · dsimp only [CapResult.state]
        rw [(recvPhase_partial_frame _ co so tf tn itf dat).2, clearIfOpen_db]
    · rw [if_neg hco]
      exact ⟨rfl, rfl⟩

/-- Claim C3 counterexample: snapshot on connection 0, outage, reconnect
(connection 1), then a data frame on connection 1 before any snapshot on
that connection — yet the bucket is inserted, because
`rcvd_tradeBin1m_partial` is never reset on reconnect.  The claim's
per-connection gating is false. -/
theorem capture_insert_before_snapshot_after_reconnect :
    c3CexRun.1.inserts.map Prod.fst = [1]
    ∧ c3CexRun.1.snapshotConns = [0]
    ∧ (1 : Nat) ∉ c3CexRun.1.snapshotConns := by
  refine ⟨by decide, by decide, by decide⟩

/-- Claim C3, amended: no bucket is inserted from a live data frame before
a snapshot frame has been observed on the current *or an earlier*
connection (the `rcvd_tradeBin1m_partial` flag is set by the first snapshot
and persists across reconnects), and the snapshot frame itself is never
inserted. -/
theorem capture_snapshot_gate_global :
    (∀ (db : DB) (evs : List IterInput),
        ∀ p ∈ (runCapture (initCapture db) evs).1.inserts,
          ∃ c ∈ (runCapture (initCapture db) evs).1.snapshotConns, c ≤ p.1)
    ∧ ∀ (s : CapState) (inp : IterInput) (f : Frame),
        inp.recvResult = some f → f.table = some "tradeBin1m" →
        f.action = some "partial" →
        (stepCapture s inp).state.inserts = s.inserts
        ∧ (stepCapture s inp).state.db = s.db := by
  constructor
  · intro db evs
    exact (CapInv_runCapture evs (initCapture db) (CapInv_initCapture db)).2.1
  · intro s inp f hr ht ha
    obtain ⟨tb, act, dat⟩ := f
    dsimp only at ht ha
    subst ht
    subst ha
    exact stepCapture_partial_frame s inp dat hr

/-- Witness for the amended claim C3: on the single-connection run the
recorded insert is justified by the snapshot on connection 0, and a
snapshot frame leaves inserts and store untouched. -/
theorem capture_snapshot_gate_global_witness :
    (∃ c ∈ c3WitnessRun.1.snapshotConns, c ≤ 0)
    ∧ (stepCapture (initCapture ⟨[]⟩) (recvInput snapshotFrame)).state.inserts
        = (initCapture ⟨[]⟩).inserts := by
  constructor
  · exact capture_snapshot_gate_global.1 ⟨[]⟩
      [recvInput snapshotFrame, recvInput (dataFrame 600)]
      (0, recToBucket 600 "XBTUSD" (liveRecXBT 600)) (by decide)
  · exact (capture_snapshot_gate_global.2 (initCapture ⟨[]⟩) (recvInput snapshotFrame)
      snapshotFrame rfl rfl rfl).1

/-- Claim C7 (confirmed): on a receive error the outage marker is set to
the failure-time clock sample only if it is currently clear (a non-clear
marker is kept unchanged, so repeated failures within one outage do not
move it), and the horizon passed to the subsequent `fill_gaps` invocation
equals `(now - outageStart) + 5` minutes — hence exactly the outage
duration measured from the marker plus the five-minute cushion. -/
theorem outage_marker_set_only_when_clear (marker : Option Int) (tFail tNow : Int)
    (hpos : ∀ t, marker = some t → t ≠ 0) :
    (∀ t, marker = some t → (markOutageAndHorizon marker tFail tNow).1 = some t)
    ∧ (marker = none → (markOutageAndHorizon marker tFail tNow).1 = some tFail)
    ∧ ∀ u, (markOutageAndHorizon marker tFail tNow).1 = some u →
        (markOutageAndHorizon marker tFail tNow).2 = tNow - u + 5 * 60 := by
  refine ⟨?_, ?_, ?_⟩
  · intro t ht
    subst ht
    have hne : t ≠ 0 := hpos t rfl
    simp [markOutageAndHorizon, markOutage, hne]
  · intro h
    subst h
    rfl
  · intro u hu
    simp only [markOutageAndHorizon, Option.some.injEq] at hu
    simp only [markOutageAndHorizon, hu]

/-- Witness for claim C7: a set marker (outage started at 100) is not
moved, a clear marker is set to the failure time 200, and the horizon is
the duration since the marker plus 300 seconds. -/
theorem outage_marker_set_only_when_clear_witness :
    (markOutageAndHorizon (some 100) 200 260).1 = some 100
    ∧ (markOutageAndHorizon none 200 260).1 = some 200
    ∧ (markOutageAndHorizon (some 100) 200 260).2 = 260 - 100 + 5 * 60 := by
  refine ⟨(outage_marker_set_only_when_clear (some 100) 200 260 ?_).1 100 rfl,
    (outage_marker_set_only_when_clear none 200 260 ?_).2.1 rfl,
    (outage_marker_set_only_when_clear (some 100) 200 260 ?_).2.2 100 rfl⟩
  · intro t ht
    injection ht with h
    subst h
    decide
  · intro t ht
    exact Option.noConfusion ht
  · intro t ht
    injection ht with h
    subst h
    decide

/-- Claim C8 counterexample: after a receive failure closes the socket (the
outage handler runs, recording its `fill_gaps` call), the reconnect attempt
of source line 140 raises — the exception is uncaught inside the loop, so
`capture_data` terminates of its own accord. -/
theorem capture_crashes_on_reconnect_failure :
    c8CexRun.2 = true ∧ c8CexRun.1.fillGapsHorizons = [310] := by
  exact ⟨by decide, by decide⟩

/-- Claim C8, amended: a stream *receive* failure always leads back into
the reconcile-and-continue path (the iteration never crashes while the
socket is open), and the only way an iteration can end `capture_data` is a
failed reconnect: a crash implies the socket was closed, the reconnect
attempt failed, and the state is returned unchanged. -/
theorem capture_recv_failure_never_crashes :
    (∀ (s : CapState) (inp : IterInput),
        inp.recvResult = none → s.sockOpen = true →
        (stepCapture s inp).isCont = true)
    ∧ ∀ (s : CapState) (inp : IterInput),
        (stepCapture s inp).isCont = false →
        s.sockOpen = false ∧ inp.connectOk = false
        ∧ (stepCapture s inp).state = s := by
  constructor
  · intro s inp _ ho
    unfold stepCapture
    rw [if_pos ho]
    rfl
  · intro s inp h
    unfold stepCapture at h ⊢
    by_cases ho : s.sockOpen = true
    · rw [if_pos ho] at h
      exact absurd h (by simp [CapResult.isCont])
    · rw [if_neg ho] at h ⊢
      by_cases hco : inp.connectOk = true
      · rw [if_pos hco] at h
        exact absurd h (by simp [CapResult.isCont])
      · rw [if_neg hco] at h ⊢
        exact ⟨by simpa using ho, by simpa using hco, rfl⟩

/-- Witness for the amended claim C8: a receive failure on an open socket
continues the loop; a failed reconnect on a closed socket crashes with the
state unchanged. -/
theorem capture_recv_failure_never_crashes_witness :
    (stepCapture (initCapture ⟨[]⟩) (recvFailInput true 5 7)).isCont = true
    ∧ (stepCapture { initCapture ⟨[]⟩ with sockOpen := false }
        reconnectFailInput).state
        = { initCapture ⟨[]⟩ with sockOpen := false } := by
  exact ⟨capture_recv_failure_never_crashes.1 (initCapture ⟨[]⟩)
      (recvFailInput true 5 7) rfl rfl,
    (capture_recv_failure_never_crashes.2 { initCapture ⟨[]⟩ with sockOpen := false }
      reconnectFailInput (by decide)).2.2⟩

end BitmexBuckets
